import Mathlib

/-!
# Verification of the customs-import normalization-and-aggregation pipeline

A shallow embedding, in Lean 4, of the core pipeline of `src/app.py`:
column reconciliation (alias renaming and conflict resolution), residual
column deduplication, date normalization (`safe_to_datetime`), numeric
coercion (Brazilian locale cleanup), and the grouped aggregation
(single multi-column pass at line 475 versus the iterative
aggregate-then-merge strategy at lines 260-301).

Cells read from an uploaded file are modelled as `Option String`
(`none` is a missing value, i.e. pandas `NaN`); `str(cell)` on a missing
value renders as `"nan"`, matching `astype(str)`.  Machine floats are
modelled as `ℚ`.  A dataframe is modelled column-major:
a list of (column name, column values) pairs.
-/

/-- Digit characters, as Python `str.isdigit` sees ASCII text. -/
def isDigitChar (c : Char) : Bool := '0' ≤ c ∧ c ≤ '9'

/-- Python `str.isdigit`: nonempty and all digits. -/
def pyIsDigit (cs : List Char) : Bool := !cs.isEmpty && cs.all isDigitChar

/-- Numeric value of a digit string read left to right (base 10). -/
def digitsVal (cs : List Char) : ℕ := cs.foldl (fun a c => 10 * a + (c.toNat - 48)) 0

/-- Remove the first occurrence of a character, as Python
`str.replace(old, new, 1)` with an empty replacement. -/
def removeFirst (c : Char) : List Char → List Char
  | [] => []
  | a :: l => if a = c then l else a :: removeFirst c l

/-- Python `str.strip()` (whitespace from both ends), used for the
header cleanup `[col.strip() for col in df.columns]` at line 51. -/
def pyStrip (s : String) : String :=
  ⟨((s.data.dropWhile Char.isWhitespace).reverse.dropWhile Char.isWhitespace).reverse⟩

/-- Split a character list on a separator character, Python `str.split(sep)`. -/
def splitOnChar (c : Char) (cs : List Char) : List (List Char) :=
  cs.foldr
    (fun a acc =>
      match acc with
      | [] => [[a]]
      | g :: gs => if a = c then [] :: g :: gs else (a :: g) :: gs)
    [[]]

/-! ## NumericCoercer (lines 158-191)

The cleanup at lines 170-175 removes every period, turns every comma
into a period, and removes every space; `pd.to_numeric(..., errors='coerce')`
then parses the result as a decimal number, and `fillna(0)` turns any
failure into `0.0`. -/

/-- The string cleanup of lines 170-175: drop all `.`, map `,` to `.`,
drop all spaces. -/
def cleanNumeric (cs : List Char) : List Char :=
  ((cs.filter (fun c => decide (c ≠ '.'))).map
    (fun c => if c = ',' then '.' else c)).filter (fun c => decide (c ≠ ' '))

/-- Strip one optional leading sign from a numeric text. -/
def splitSign (cs : List Char) : Bool × List Char :=
  match cs with
  | [] => (false, [])
  | c :: r => if c = '-' then (true, r) else if c = '+' then (false, r) else (false, c :: r)

/-- The unsigned part of `parseDecimal?`: digits with at most one
decimal point and at least one digit yield the digit string's value with
the point removed plus the number of fractional digits; any other shape
fails. -/
def parseDecimalBody? (neg : Bool) (body : List Char) : Option (Bool × ℕ × ℕ) :=
  if body.all (fun c => isDigitChar c || c = '.')
      ∧ (body.count '.') ≤ 1
      ∧ body.any isDigitChar then
    let ip := body.takeWhile (fun c => decide (c ≠ '.'))
    let fp := (body.dropWhile (fun c => decide (c ≠ '.'))).drop 1
    some (neg, digitsVal (ip ++ fp), fp.length)
  else none

/-- Decimal parsing as performed by `pd.to_numeric(..., errors='coerce')`
on the cleaned text: an optional sign, then digits with at most one
decimal point and at least one digit; any other shape
(e.g. `"abc"`, `"nan"`, `""`) fails. -/
def parseDecimal? (cs : List Char) : Option (Bool × ℕ × ℕ) :=
  parseDecimalBody? (splitSign cs).1 (splitSign cs).2

/-- The rational value of a parsed decimal. -/
def ratOfParsed : Bool × ℕ × ℕ → ℚ
  | (neg, v, f) => (if neg then -1 else 1) * (v : ℚ) / 10 ^ f

/-- Coercion of one textual cell value: cleanup, parse, and `0` on any
failure (`errors='coerce'` followed by `fillna(0)`, lines 177-181). -/
def coerceValue (s : String) : ℚ :=
  ((parseDecimal? (cleanNumeric s.data)).map ratOfParsed).getD 0

/-- Coercion of one raw cell: `astype(str)` renders a missing value as
`"nan"`, which fails to parse and becomes `0`. -/
def coerceCell (v : Option String) : ℚ := coerceValue (v.getD "nan")

/-- Whether coercion of a cell fell back to zero because parsing failed. -/
def coerceFailed (v : Option String) : Bool :=
  (parseDecimal? (cleanNumeric ((v.getD "nan").data))).isNone

/-- Modelled from the spec: the per-column count of coercion failures
recorded for the run's warning summary (spec 4.4).  `src/app.py` absorbs
failures via `fillna(0)` without keeping a counter; the counter belongs to
the repository's other revisions of the script, which are not under `src/`. -/
def coerceFailures (vals : List (Option String)) : ℕ := vals.countP coerceFailed

/-- Coercing a whole column: the coerced values plus the failure count. -/
def coerceColumn (vals : List (Option String)) : List ℚ × ℕ :=
  (vals.map coerceCell, coerceFailures vals)

/-! ## DateNormalizer (`safe_to_datetime`, lines 112-139)

Dates are `(year, month, day)` triples of naturals.  `pd.to_datetime`
produces `pd.Timestamp` values, which only represent dates between
1677-09-21 and 2262-04-11; outside that window `errors='coerce'`
yields `NaT`. -/

/-- Lexicographic order on `(year, month, day)` triples. -/
def dateLe (a b : ℕ × ℕ × ℕ) : Bool :=
  a.1 < b.1 ∨ (a.1 = b.1 ∧ (a.2.1 < b.2.1 ∨ (a.2.1 = b.2.1 ∧ a.2.2 ≤ b.2.2)))

/-- Within the representable `pd.Timestamp` window. -/
def inTsRange (d : ℕ × ℕ × ℕ) : Bool :=
  dateLe (1677, 9, 21) d && dateLe d (2262, 4, 11)

/-- Gregorian leap year. -/
def isLeap (y : ℕ) : Bool := (y % 4 = 0 ∧ y % 100 ≠ 0) ∨ y % 400 = 0

/-- Days in a month of the Gregorian calendar. -/
def daysInMonth (y m : ℕ) : ℕ :=
  if m = 2 then (if isLeap y then 29 else 28)
  else if m = 4 ∨ m = 6 ∨ m = 9 ∨ m = 11 then 30
  else 31

/-- Calendar validity of a `(year, month, day)` triple. -/
def validDate (y m d : ℕ) : Bool :=
  1 ≤ m ∧ m ≤ 12 ∧ 1 ≤ d ∧ d ≤ daysInMonth y m

/-- `pd.to_datetime(dt_str, format="%Y%m", errors='coerce')` (line 128):
with the default exact matching the whole string must be consumed, so the
text must be exactly four year digits followed by two month digits, the
month must be 01-12, and the resulting month-start must be a
representable timestamp; anything else coerces to `NaT` (`none`). -/
def parseYYYYMM? (cs : List Char) : Option (ℕ × ℕ × ℕ) :=
  if cs.length = 6 ∧ cs.all isDigitChar then
    let y := digitsVal (cs.take 4)
    let m := digitsVal (cs.drop 4)
    if validDate y m 1 ∧ inTsRange (y, m, 1) then some (y, m, 1) else none
  else none

/-- The generic parse `pd.to_datetime(dt_str, errors='coerce')` of
line 119, modelled on the ISO shapes `YYYY-MM-DD`, `YYYY/MM/DD` and
`YYYY-MM` / `YYYY/MM` (a missing day defaults to the first of the
month); an unrecognized shape, an invalid calendar date, or a date
outside the timestamp window coerces to `NaT` (`none`). -/
def parseGenericDate? (cs : List Char) : Option (ℕ × ℕ × ℕ) :=
  let sep : Char := if cs.contains '-' then '-' else '/'
  match splitOnChar sep cs with
  | [a, b] =>
    if a.length = 4 ∧ pyIsDigit a ∧ 1 ≤ b.length ∧ b.length ≤ 2 ∧ pyIsDigit b
        ∧ validDate (digitsVal a) (digitsVal b) 1
        ∧ inTsRange (digitsVal a, digitsVal b, 1) then
      some (digitsVal a, digitsVal b, 1)
    else none
  | [a, b, c] =>
    if a.length = 4 ∧ pyIsDigit a ∧ 1 ≤ b.length ∧ b.length ≤ 2 ∧ pyIsDigit b
        ∧ 1 ≤ c.length ∧ c.length ≤ 2 ∧ pyIsDigit c
        ∧ validDate (digitsVal a) (digitsVal b) (digitsVal c)
        ∧ inTsRange (digitsVal a, digitsVal b, digitsVal c) then
      some (digitsVal a, digitsVal b, digitsVal c)
    else none
  | _ => none

/-- Whether the rendered value contains a dash or slash (line 118). -/
def containsDashSlash (cs : List Char) : Bool :=
  cs.any (fun c => c = '-' || c = '/')

/-- The fractional-component strip of lines 123-124: if the text contains
a period and removing the first period leaves a pure digit string, keep
only the part before the first period (`dt_str.split('.')[0]`). -/
def stripFrac (cs : List Char) : List Char :=
  if cs.contains '.' ∧ pyIsDigit (removeFirst '.' cs) then
    cs.takeWhile (fun c => decide (c ≠ '.'))
  else cs

/-- `safe_to_datetime` (lines 112-131): `NaN` stays `NaT`; a value whose
text contains a dash or slash goes through the generic date parser; else
the fractional strip is applied and a pure digit string of length at
least 6 goes through the `%Y%m` parser; everything else is `NaT`. -/
def safe_to_datetime (v : Option String) : Option (ℕ × ℕ × ℕ) :=
  match v with
  | none => none
  | some s =>
    let cs := s.data
    if containsDashSlash cs then parseGenericDate? cs
    else
      let t := stripFrac cs
      if pyIsDigit t ∧ 6 ≤ t.length then parseYYYYMM? t else none

/-- The period column after normalization: parse every raw value and
drop the rows that yielded no value
(`df["ANO/MÊS"].apply(safe_to_datetime)` then `dropna`, lines 134-135). -/
def normalizePeriods (vals : List (Option String)) : List (ℕ × ℕ × ℕ) :=
  (vals.map safe_to_datetime).filterMap id

/-! ## Dataframes, ColumnReconciler (lines 49-107) -/

/-- A dataframe, column-major: columns in order, each a name with its
list of cell values. -/
abbrev Frame (α : Type) : Type := List (String × List α)

/-- The column names of a frame, in order. -/
def colNames {α : Type} (df : Frame α) : List String := df.map Prod.fst

/-- `pandas.DataFrame.empty`: true when there are no columns or no rows. -/
def framEmpty {α : Type} (df : Frame α) : Bool :=
  df.isEmpty || df.any (fun c => c.2.isEmpty)

/-- The alias table `column_mapping` of lines 53-76, in source order. -/
def column_mapping : List (String × String) :=
  [("Peso líquido", "Peso"),
   ("VALOR FOB ESTIMADO TOTAL", "Valor_FOB"),
   ("VALOR CIF TOTAL", "Valor_CIF"),
   ("QTD Estatística", "Qtd_Estatística"),
   ("Qtd. de operações estimada", "Qtd_Estatística"),
   ("Descrição produto", "Produto"),
   ("PAIS DE ORIGEM", "País"),
   ("País de aquisição", "País_Aquisição"),
   ("URF de Entrada", "URF_Entrada"),
   ("PROVÁVEL IMPORTADOR", "Importador"),
   ("PROVÁVEL EXPORTADOR", "Exportador"),
   ("NCM's", "NCM"),
   ("NCM", "NCM"),
   ("MODAL", "Modal"),
   ("Incoterm", "Incoterm"),
   ("Valor CIF Unitário", "CIF_Unitário"),
   ("Valor FOB Estimado Unitário", "FOB_Unitário")]

/-- The first of the two raw headers colliding on `Qtd_Estatística`
(line 86). -/
def col_qte_est_1 : String := "QTD Estatística"

/-- The second, more descriptive colliding raw header (line 87). -/
def col_qte_est_2 : String := "Qtd. de operações estimada"

/-- Apply a raw-to-canonical rename table to one header
(`df.rename(columns=renamed_cols)`, line 102): the first matching entry
wins, and an unmapped header passes through unchanged. -/
def lookupRename (tbl : List (String × String)) (n : String) : String :=
  match tbl.find? (fun p => decide (p.1 = n)) with
  | some p => p.2
  | none => n

/-- Header whitespace cleanup, line 51. -/
def stripFrame {α : Type} (df : Frame α) : Frame α :=
  df.map (fun c => (pyStrip c.1, c.2))

/-- A recovered column-conflict warning naming the dropped and the kept
raw headers (the `st.warning` of line 97). -/
structure ConflictWarning where
  dropped : String
  kept : String
deriving DecidableEq

/-- The ColumnReconciler, lines 78-102 (on already-stripped headers):
build `renamed_cols` from the alias entries whose raw header is present;
if both statistical-quantity headers are present, drop the entire
`col_qte_est_1` column, remove it from the rename table, and emit a
conflict warning; then rename every remaining column. -/
def reconcileFrame {α : Type} (df : Frame α) : Frame α × List ConflictWarning :=
  let renamed_cols := column_mapping.filter (fun p => decide (p.1 ∈ colNames df))
  if col_qte_est_1 ∈ colNames df ∧ col_qte_est_2 ∈ colNames df then
    let df' := df.filter (fun c => decide (c.1 ≠ col_qte_est_1))
    let tbl := renamed_cols.filter (fun p => decide (p.1 ≠ col_qte_est_1))
    (df'.map (fun c => (lookupRename tbl c.1, c.2)),
     [⟨col_qte_est_1, col_qte_est_2⟩])
  else
    (df.map (fun c => (lookupRename renamed_cols c.1, c.2)), [])

/-! ## Deduplicator (lines 104-107) -/

/-- `df.loc[:, ~df.columns.duplicated(keep='first')]`: scan columns left
to right, keep the first column bearing each name, discard the rest. -/
def keepFirstCols {α : Type} : Frame α → Frame α
  | [] => []
  | c :: rest => c :: (keepFirstCols rest).filter (fun c' => decide (c'.1 ≠ c.1))

/-- The residual-duplicate removal of lines 106-107: it only runs when
the dataframe is non-empty. -/
def dedupFrame {α : Type} (df : Frame α) : Frame α :=
  if framEmpty df then df else keepFirstCols df

/-- First-occurrence deduplication of a list (used for column names and
for pandas group keys). -/
def firstDedup {K : Type} [DecidableEq K] : List K → List K
  | [] => []
  | a :: l => a :: (firstDedup l).filter (fun x => decide (x ≠ a))

/-! ## The ingestion pipeline front end (lines 49-191) -/

/-- Strip, reconcile, deduplicate: the structural part of ingestion. -/
def frontPipeline {α : Type} (df : Frame α) : Frame α :=
  dedupFrame (reconcileFrame (stripFrame df)).1

/-- Keep the rows of a column selected by a boolean mask. -/
def applyMask {α : Type} (mask : List Bool) (vals : List α) : List α :=
  ((vals.zip mask).filter (fun p => p.2)).map Prod.fst

/-- The values of a named column (first match), empty if absent. -/
def lookupVals {α : Type} (df : Frame α) (n : String) : List α :=
  ((df.find? (fun c => decide (c.1 = n))).map Prod.snd).getD []

/-- Date normalization over the whole frame (lines 134-135): rows whose
`ANO/MÊS` value fails `safe_to_datetime` are dropped from every column. -/
def dateNormalizeFrame (df : Frame (Option String)) : Frame (Option String) :=
  let mask := (lookupVals df "ANO/MÊS").map (fun v => (safe_to_datetime v).isSome)
  df.map (fun c => (c.1, applyMask mask c.2))

/-- Number of rows of a frame. -/
def nrows {α : Type} (df : Frame α) : ℕ :=
  match df with
  | [] => 0
  | c :: _ => c.2.length

/-- The backfill of lines 153-156: each absent non-required numeric
column is created filled with `0.0`. -/
def backfillFrame (df : Frame (Option String)) : Frame (Option String) :=
  ["Valor_FOB", "Valor_CIF", "Qtd_Estatística"].foldl
    (fun d col =>
      if col ∈ colNames d then d
      else d ++ [(col, List.replicate (nrows d) (some "0.0"))])
    df

/-- The designated numeric columns of line 159. -/
def numeric_cols : List String :=
  ["Peso", "Valor_FOB", "Valor_CIF", "Qtd_Estatística", "CIF_Unitário", "FOB_Unitário"]

/-- Numeric coercion over the whole frame (lines 158-191): cells of the
designated numeric columns become rationals, other columns keep their
raw cells. -/
def coerceFrame (df : Frame (Option String)) : Frame (Option String ⊕ ℚ) :=
  df.map (fun c =>
    if c.1 ∈ numeric_cols then (c.1, c.2.map (fun v => Sum.inr (coerceCell v)))
    else (c.1, c.2.map Sum.inl))

/-- The fatal schema errors of lines 140-142 and 149-151. -/
inductive SchemaError where
  | periodMissing
  | pesoMissing
deriving DecidableEq

/-- The whole ingestion pass, lines 49-191: strip, reconcile,
deduplicate; abort if the period column `ANO/MÊS` is absent; normalize
dates (dropping unparsable rows); abort if the weight column `Peso` is
absent; backfill the remaining numeric columns; coerce numerics.
`st.stop()` is modelled as `Except.error`. -/
def ingest (df : Frame (Option String)) : Except SchemaError (Frame (Option String ⊕ ℚ)) :=
  let r := frontPipeline df
  if "ANO/MÊS" ∈ colNames r then
    let r := dateNormalizeFrame r
    if "Peso" ∈ colNames r then
      Except.ok (coerceFrame (backfillFrame r))
    else Except.error SchemaError.pesoMissing
  else Except.error SchemaError.periodMissing

/-- Whether ingestion aborted. -/
def ingestAborts (df : Frame (Option String)) : Prop :=
  ∃ e, ingest df = Except.error e

/-! ## Aggregator (lines 236-301, and the single pass of line 475)

Group keys are abstract (`ANO/MÊS` alone, or `ANO/MÊS` paired with one
categorical dimension); a grouped row carries its key and its numeric
metric values, indexed by the position of the metric in `agg_dict`
(0 = `Peso`, 1 = `Valor_FOB`, 2 = `Valor_CIF`, 3 = `Qtd_Estatística`
when present). -/

/-- The group keys of `df.groupby(group_cols)`, one per distinct key. -/
def gkeys {K : Type} [DecidableEq K] {V : Type} (rows : List (K × V)) : List K :=
  firstDedup (rows.map Prod.fst)

/-- The grouped sum of metric `i` over the partition of key `k`
(`grouped_obj[col].agg('sum')`). -/
def groupSum {K : Type} [DecidableEq K] (rows : List (K × (ℕ → ℚ))) (k : K) (i : ℕ) : ℚ :=
  ((rows.filter (fun r => decide (r.1 = k))).map (fun r => r.2 i)).sum

/-- The single multi-column grouped sum
(`df.groupby(...).agg(agg_dict)`, line 475, and the refinement target of
the spec's equivalence invariant): one result row per group key holding
the sums of all `n` requested metrics. -/
def singlePassAgg {K : Type} [DecidableEq K] (rows : List (K × (ℕ → ℚ))) (n : ℕ) :
    List (K × List ℚ) :=
  (gkeys rows).map (fun k => (k, (List.range n).map (fun i => groupSum rows k i)))

/-- `pandas.merge(..., on=group_cols, how='left')` (lines 293-297): every
left row is matched against the right rows with the same key; each match
contributes one output row with the right value appended, and a left row
with no match survives with a missing value (`none`, pandas `NaN`)
appended. -/
def leftMerge {K : Type} [DecidableEq K] (left : List (K × List (Option ℚ)))
    (right : List (K × ℚ)) : List (K × List (Option ℚ)) :=
  left.flatMap (fun p =>
    let ms := right.filter (fun q => decide (q.1 = p.1))
    if ms.isEmpty then [(p.1, p.2 ++ [none])]
    else ms.map (fun q => (p.1, p.2 ++ [some q.2])))

/-- The iterative aggregation strategy of lines 260-297 (`agrupado_agg`):
aggregate the first metric alone to start the result, then for each
remaining metric aggregate it over the same `GroupBy` object, keep only
the key columns and the aggregated column, and left-merge onto the
running result on the key columns. -/
def agrupado_agg {K : Type} [DecidableEq K] (rows : List (K × (ℕ → ℚ))) (n : ℕ) :
    List (K × List (Option ℚ)) :=
  let keys := gkeys rows
  (List.range (n - 1)).foldl
    (fun acc j => leftMerge acc (keys.map (fun k => (k, groupSum rows k (j + 1)))))
    (keys.map (fun k => (k, [some (groupSum rows k 0)])))

/-- Modelled from the spec: the Aggregator's weighted unit value
(spec 4.5): `cifUnit = sum(cifValue) / sum(weight)` when
`sum(weight) > 0`, else `0`.  This derivation is not present in
`src/app.py` (which only sums the metrics); it belongs to the other
revisions of the script that the repository holds outside `src/`. -/
def deriveCifUnit (sumCif sumWeight : ℚ) : ℚ :=
  if 0 < sumWeight then sumCif / sumWeight else 0

/-- The derived weighted unit value of one aggregation group, with
metric index `wIdx` the weight and `cIdx` the CIF value. -/
def bucketCifUnit {K : Type} [DecidableEq K] (rows : List (K × (ℕ → ℚ)))
    (k : K) (wIdx cIdx : ℕ) : ℚ :=
  deriveCifUnit (groupSum rows k cIdx) (groupSum rows k wIdx)

/-! ## Historical-view filters and the forecast input (lines 216-220, 472-483) -/

/-- One canonical record as the filter and forecast code paths see it:
its period key, the two filterable dimensions, and its numeric metrics
by index. -/
structure CanonRow where
  period : ℕ × ℕ × ℕ
  produto : String
  pais : String
  vals : ℕ → ℚ

/-- The keyed rows of a canonical dataset, grouped by period alone. -/
def toKRows (rows : List CanonRow) : List ((ℕ × ℕ × ℕ) × (ℕ → ℚ)) :=
  rows.map (fun r => (r.period, r.vals))

/-- `df_filtrado` (lines 216-220): an empty multiselect is falsy and
applies no filter; a non-empty selection keeps the rows whose dimension
value is among the selected ones. -/
def df_filtrado (rows : List CanonRow) (produtos paises : List String) : List CanonRow :=
  let r1 := if produtos.isEmpty then rows
            else rows.filter (fun r => decide (r.produto ∈ produtos))
  if paises.isEmpty then r1 else r1.filter (fun r => decide (r.pais ∈ paises))

/-- The `(period, value)` series handed to the forecasting collaborator
(lines 472-483): `df.groupby("ANO/MÊS").agg(agg_dict)` over the FULL
canonical dataset `df` — the Previsão branch never touches
`df_filtrado` — then selection of the chosen metric column.  The filter
selections are part of the run's state and appear as arguments, exactly
as unused by this code path as they are in the source. -/
def forecastInput (rows : List CanonRow) (n metric : ℕ)
    (produtos paises : List String) : List ((ℕ × ℕ × ℕ) × ℚ) :=
  (singlePassAgg (toKRows rows) n).map (fun p => (p.1, p.2.getD metric 0))

/-- Grouping the full dataset by period alone, summing one metric. -/
def periodGroupSeries (rows : List CanonRow) (metric : ℕ) : List ((ℕ × ℕ × ℕ) × ℚ) :=
  (gkeys (toKRows rows)).map (fun k => (k, groupSum (toKRows rows) k metric))

/-- The column names of the aggregation result after the duplicate-column
cleanup of lines 299-301 (which, unlike the ingestion-side cleanup, runs
unconditionally). -/
def aggResultNames (groupCols aggCols : List String) : List String :=
  firstDedup (groupCols ++ aggCols)

/-! ## Concrete sample data -/

/-- A small keyed dataset with a repeated group key, three metrics. -/
def sampleRows : List (ℕ × (ℕ → ℚ)) :=
  [(1, fun i => (i : ℚ) + 1), (2, fun _ => 5), (1, fun _ => 2)]

/-- One aggregation group holding `weight = 100` (metric 0) and
`cifValue = 250` (metric 1). -/
def sampleCifGroup : List (Unit × (ℕ → ℚ)) :=
  [((), fun i => if i = 0 then (100 : ℚ) else 250)]

/-- A zero-row frame whose two raw headers both rename to `NCM`. -/
def sampleNCMFrame : Frame (Option String) :=
  [("NCM's", []), ("NCM", [])]

/-- A one-row frame containing both colliding statistical-quantity
headers plus the required columns. -/
def sampleConflictFrame : Frame (Option String) :=
  [("ANO/MÊS", [some "202301"]),
   ("Peso líquido", [some "1.000,0"]),
   ("QTD Estatística", [some "7"]),
   ("Qtd. de operações estimada", [some "9"])]

/-- A frame missing the weight column. -/
def sampleNoPesoFrame : Frame (Option String) :=
  [("ANO/MÊS", [some "202301"]), ("VALOR CIF TOTAL", [some "10"])]

/-- A one-row frame with a duplicated column name. -/
def sampleDupFrame : Frame (Option String) :=
  [("A", [some "1"]), ("A", [some "2"])]

/-- A small canonical dataset for the forecast path. -/
def sampleCanon : List CanonRow :=
  [⟨(2023, 1, 1), "PMMA", "China", fun _ => 1⟩,
   ⟨(2023, 2, 1), "Resina", "EUA", fun _ => 2⟩,
   ⟨(2023, 1, 1), "PMMA", "EUA", fun _ => 3⟩]

/-! ## Supporting lemmas -/

theorem mem_firstDedup {K : Type} [DecidableEq K] {x : K} {l : List K} :
    x ∈ firstDedup l ↔ x ∈ l := by
  induction l with
  | nil => simp [firstDedup]
  | cons a l ih =>
    simp only [firstDedup, List.mem_cons, List.mem_filter, decide_eq_true_eq, ih]
    constructor
    · rintro (rfl | ⟨hx, _⟩)
      · exact Or.inl rfl
      · exact Or.inr hx
    · rintro (rfl | hx)
      · exact Or.inl rfl
      · by_cases hxa : x = a
        · exact Or.inl hxa
        · exact Or.inr ⟨hx, hxa⟩

theorem nodup_firstDedup {K : Type} [DecidableEq K] (l : List K) :
    (firstDedup l).Nodup := by
  induction l with
  | nil => simp [firstDedup]
  | cons a l ih =>
    simp only [firstDedup, List.nodup_cons]
    refine ⟨?_, ih.filter _⟩
    intro hmem
    rcases List.mem_filter.mp hmem with ⟨_, hne⟩
    exact (decide_eq_true_eq.mp hne) rfl

theorem filter_keyed_map_eq_nil {K : Type} [DecidableEq K] (keys : List K) (g : K → ℚ)
    (k : K) (hk : k ∉ keys) :
    (keys.map (fun x => (x, g x))).filter (fun q => decide (q.1 = k)) = [] := by
  induction keys with
  | nil => rfl
  | cons a l ih =>
    simp only [List.mem_cons, not_or] at hk
    simp only [List.map_cons, List.filter_cons]
    rw [if_neg (by simpa using Ne.symm hk.1), ih hk.2]

theorem filter_keyed_map_eq_single {K : Type} [DecidableEq K] (keys : List K) (g : K → ℚ)
    (k : K) (hnd : keys.Nodup) (hk : k ∈ keys) :
    (keys.map (fun x => (x, g x))).filter (fun q => decide (q.1 = k)) = [(k, g k)] := by
  induction keys with
  | nil => cases hk
  | cons a l ih =>
    rcases List.nodup_cons.mp hnd with ⟨ha, hl⟩
    rcases List.mem_cons.mp hk with rfl | hk'
    · have h1 : (l.map (fun x => (x, g x))).filter (fun q => decide (q.1 = k)) = [] :=
        filter_keyed_map_eq_nil l g k ha
      simp [List.filter_cons, h1]
    · have hak : a ≠ k := fun h => ha (h ▸ hk')
      have hka : ¬((a, g a).1 = k) := hak
      simp [List.filter_cons, hka, ih hl hk']

theorem leftMerge_keyed_maps {K : Type} [DecidableEq K] (L R : List K)
    (hR : R.Nodup) (hsub : ∀ k ∈ L, k ∈ R) (v : K → List (Option ℚ)) (g : K → ℚ) :
    leftMerge (L.map (fun k => (k, v k))) (R.map (fun k => (k, g k)))
      = L.map (fun k => (k, v k ++ [some (g k)])) := by
  induction L with
  | nil => rfl
  | cons a L ih =>
    have ha : a ∈ R := hsub a (List.mem_cons_self a L)
    simp only [leftMerge, List.map_cons, List.flatMap_cons]
    rw [filter_keyed_map_eq_single R g a hR ha]
    simp only [List.isEmpty_cons, List.map_cons, List.map_nil, if_neg Bool.false_ne_true]
    have := ih (fun k hk => hsub k (List.mem_cons_of_mem a hk))
    simp only [leftMerge] at this
    rw [this]
    rfl

/-- The invariant of the iterative merge loop: after the first `j`
merges the running result holds, per group key, the sums of metrics
`0..j`. -/
theorem agrupado_agg_invariant {K : Type} [DecidableEq K]
    (rows : List (K × (ℕ → ℚ))) (j : ℕ) :
    (List.range j).foldl
        (fun acc i =>
          leftMerge acc ((gkeys rows).map (fun k => (k, groupSum rows k (i + 1)))))
        ((gkeys rows).map (fun k => (k, [some (groupSum rows k 0)])))
      = (gkeys rows).map
          (fun k => (k, (List.range (j + 1)).map (fun i => some (groupSum rows k i)))) := by
  induction j with
  | zero =>
    simp only [List.range_zero, List.foldl_nil]
    rfl
  | succ j ih =>
    rw [List.range_succ, List.foldl_append]
    simp only [List.foldl_cons, List.foldl_nil, ih]
    rw [leftMerge_keyed_maps (gkeys rows) (gkeys rows) (nodup_firstDedup _)
      (fun k hk => hk) _ _]
    congr 1
    funext k
    conv_rhs => rw [List.range_succ, List.map_append]
    rfl

/-! ## Claim theorems -/

/-- C1.  Aggregator equivalence: for every keyed dataset (the group key
covers both grouping choices, `period` alone or `period` plus one
categorical dimension) and every positive number of requested metrics,
the iterative strategy of lines 260-297 — sum the first metric, then for
each remaining metric sum it over the same groups and left-merge onto
the running result on the group columns — equals the single multi-column
grouped sum row for row and value for value (every merged value present,
none missing, no extra merge rows); the group keys carry no duplicates;
and on the empty dataset both strategies yield the empty result rather
than an error. -/
theorem aggregator_iterative_single_pass_equiv {K : Type} [DecidableEq K]
    (rows : List (K × (ℕ → ℚ))) (n : ℕ) (hn : 0 < n) :
    agrupado_agg rows n = (singlePassAgg rows n).map (fun p => (p.1, p.2.map some))
      ∧ (gkeys rows).Nodup
      ∧ (rows = [] → agrupado_agg rows n = [] ∧ singlePassAgg rows n = []) := by
  obtain ⟨m, rfl⟩ : ∃ m, n = m + 1 := ⟨n - 1, (Nat.succ_pred_eq_of_pos hn).symm⟩
  have hmain : agrupado_agg rows (m + 1)
      = (singlePassAgg rows (m + 1)).map (fun p => (p.1, p.2.map some)) := by
    simp only [agrupado_agg, Nat.add_sub_cancel]
    rw [agrupado_agg_invariant rows m]
    simp only [singlePassAgg, List.map_map]
    congr 1
    funext k
    simp [Function.comp, List.map_map]
  refine ⟨hmain, nodup_firstDedup _, ?_⟩
  rintro rfl
  have hsp : singlePassAgg ([] : List (K × (ℕ → ℚ))) (m + 1) = [] := rfl
  exact ⟨by rw [hmain, hsp]; rfl, hsp⟩

/-- Witness for C1 at a concrete dataset with three metrics. -/
theorem aggregator_iterative_single_pass_equiv_witness :
    0 < 3
      ∧ (agrupado_agg sampleRows 3
            = (singlePassAgg sampleRows 3).map (fun p => (p.1, p.2.map some))
          ∧ (gkeys sampleRows).Nodup
          ∧ (sampleRows = [] →
              agrupado_agg sampleRows 3 = [] ∧ singlePassAgg sampleRows 3 = [])) :=
  ⟨Nat.zero_lt_succ 2,
   aggregator_iterative_single_pass_equiv sampleRows 3 (Nat.zero_lt_succ 2)⟩

/-- C2.  Weighted unit value (modelled from the spec, the derivation
being absent from `src/app.py`): for every aggregation group, the
derived `cifUnit` is `0` when the group's summed weight is `0` (never a
division error — the derivation is a total function), multiplies back to
the summed CIF value when the summed weight is positive (i.e. it equals
`sum(cifValue) / sum(weight)`), and on the concrete group with
`weight = 100`, `cifValue = 250` it is `5/2 = 2.5`. -/
theorem weighted_cif_unit {K : Type} [DecidableEq K]
    (rows : List (K × (ℕ → ℚ))) (k : K) (wIdx cIdx : ℕ) :
    (groupSum rows k wIdx = 0 → bucketCifUnit rows k wIdx cIdx = 0)
      ∧ (0 < groupSum rows k wIdx →
          bucketCifUnit rows k wIdx cIdx * groupSum rows k wIdx
            = groupSum rows k cIdx)
      ∧ bucketCifUnit sampleCifGroup () 0 1 = 5 / 2 := by
  refine ⟨?_, ?_, ?_⟩
  · intro h
    simp [bucketCifUnit, deriveCifUnit, h]
  · intro h
    rw [bucketCifUnit, deriveCifUnit, if_pos h]
    exact div_mul_cancel₀ _ (ne_of_gt h)
  · have h0 : groupSum sampleCifGroup () 0 = 100 := by
      simp [groupSum, sampleCifGroup]
    have h1 : groupSum sampleCifGroup () 1 = 250 := by
      simp [groupSum, sampleCifGroup]
    rw [bucketCifUnit, deriveCifUnit, h0, h1, if_pos (by norm_num)]
    norm_num

/-- Witness for C2 at the concrete group: the summed weight is positive
and the derived unit value multiplies back to the summed CIF value. -/
theorem weighted_cif_unit_witness :
    0 < groupSum sampleCifGroup () 0
      ∧ bucketCifUnit sampleCifGroup () 0 1 * groupSum sampleCifGroup () 0
          = groupSum sampleCifGroup () 1 := by
  have h : 0 < groupSum sampleCifGroup () 0 := by
    simp [groupSum, sampleCifGroup]
  exact ⟨h, (weighted_cif_unit sampleCifGroup () 0 1).2.1 h⟩

theorem foldl_digits_shift (b : List Char) :
    ∀ x : ℕ, b.foldl (fun a c => 10 * a + (c.toNat - 48)) x
      = x * 10 ^ b.length + b.foldl (fun a c => 10 * a + (c.toNat - 48)) 0 := by
  induction b with
  | nil => intro x; simp
  | cons c b ih =>
    intro x
    simp only [List.foldl_cons, List.length_cons]
    rw [ih (10 * x + (c.toNat - 48)), ih (10 * 0 + (c.toNat - 48))]
    ring

theorem digitsVal_append (a b : List Char) :
    digitsVal (a ++ b) = digitsVal a * 10 ^ b.length + digitsVal b := by
  unfold digitsVal
  rw [List.foldl_append, foldl_digits_shift]

theorem isDigitChar_ne_dot {c : Char} (h : isDigitChar c = true) : c ≠ '.' := by
  intro hc
  rw [hc] at h
  exact absurd h (by decide)

theorem isDigitChar_ne_comma {c : Char} (h : isDigitChar c = true) : c ≠ ',' := by
  intro hc
  rw [hc] at h
  exact absurd h (by decide)

theorem isDigitChar_ne_space {c : Char} (h : isDigitChar c = true) : c ≠ ' ' := by
  intro hc
  rw [hc] at h
  exact absurd h (by decide)

/-- `parseDecimal?` on a nonempty pure digit string yields its value
with no fractional digits. -/
theorem parseDecimal?_digits (l : List Char) (h : l.all isDigitChar = true)
    (hne : l ≠ []) : parseDecimal? l = some (false, digitsVal l, 0) := by
  obtain ⟨c, rest, rfl⟩ := List.exists_cons_of_ne_nil hne
  have hc : isDigitChar c = true := (List.all_eq_true.mp h) c (List.mem_cons_self c rest)
  have hsign : splitSign (c :: rest) = (false, c :: rest) := by
    have h1 : c ≠ '-' := by
      intro hcc; rw [hcc] at hc; exact absurd hc (by decide)
    have h2 : c ≠ '+' := by
      intro hcc; rw [hcc] at hc; exact absurd hc (by decide)
    simp [splitSign, h1, h2]
  rw [parseDecimal?, hsign]
  have hdig : ∀ x ∈ c :: rest, isDigitChar x = true := List.all_eq_true.mp h
  have hnodot : '.' ∉ c :: rest := fun hmem => isDigitChar_ne_dot (hdig '.' hmem) rfl
  rw [parseDecimalBody?,
    if_pos ⟨List.all_eq_true.mpr (fun x hx => by simp [hdig x hx]),
      by rw [List.count_eq_zero.mpr hnodot]; omega,
      List.any_eq_true.mpr ⟨c, List.mem_cons_self c rest, hc⟩⟩]
  have htake : List.takeWhile (fun x => !decide (x = '.')) (c :: rest) = c :: rest :=
    List.takeWhile_eq_self_iff.mpr
      (fun x hx => by simp [isDigitChar_ne_dot (hdig x hx)])
  have hdrop : List.dropWhile (fun x => !decide (x = '.')) (c :: rest) = [] :=
    List.dropWhile_eq_nil_iff.mpr
      (fun x hx => by simp [isDigitChar_ne_dot (hdig x hx)])
  simp [htake, hdrop]

/-- The numeric cleanup leaves a pure digit string alone except for
removing its decimal points. -/
theorem cleanNumeric_digits_dot (l : List Char)
    (h : ∀ x ∈ l, isDigitChar x = true ∨ x = '.') :
    cleanNumeric l = l.filter (fun c => decide (c ≠ '.')) := by
  unfold cleanNumeric
  have h1 : ∀ x ∈ l.filter (fun c => decide (c ≠ '.')), isDigitChar x = true := by
    intro x hx
    rcases List.mem_filter.mp hx with ⟨hxl, hxd⟩
    rcases h x hxl with hd | rfl
    · exact hd
    · simp at hxd
  rw [List.map_congr_left (fun x hx => if_neg (isDigitChar_ne_comma (h1 x hx))),
    List.map_id']
  exact List.filter_eq_self.mpr
    (fun x hx => by simp [isDigitChar_ne_space (h1 x hx)])

/-- C9.  Period-as-decimal rescaling (implicit behavior of the cleanup
at lines 170-175): for a numeric text written with a period as a true
decimal separator and no comma — digit strings `a` and `b` around the
point — coercion removes the period and yields the integer value of the
concatenated digits, i.e. the original value rescaled by `10 ^ |b|`, the
period never acting as a decimal point; in particular
`"1234.56"` coerces to `123456`. -/
theorem decimal_point_rescaling (a b : List Char)
    (ha : a.all isDigitChar = true) (hb : b.all isDigitChar = true)
    (hne : a ++ b ≠ []) :
    coerceValue ⟨a ++ '.' :: b⟩ = (digitsVal (a ++ b) : ℚ)
      ∧ (digitsVal (a ++ b) : ℚ)
          = ((digitsVal a : ℚ) + (digitsVal b : ℚ) / 10 ^ b.length) * 10 ^ b.length
      ∧ coerceValue "1234.56" = 123456 := by
  have hab : (a ++ b).all isDigitChar = true := by
    rw [List.all_append, ha, hb]
    rfl
  refine ⟨?_, ?_, ?_⟩
  · have hfa : a.filter (fun c => decide (c ≠ '.')) = a :=
      List.filter_eq_self.mpr
        (fun x hx => by simp [isDigitChar_ne_dot (List.all_eq_true.mp ha x hx)])
    have hfb : b.filter (fun c => decide (c ≠ '.')) = b :=
      List.filter_eq_self.mpr
        (fun x hx => by simp [isDigitChar_ne_dot (List.all_eq_true.mp hb x hx)])
    have hclean : cleanNumeric (a ++ '.' :: b) = a ++ b := by
      rw [cleanNumeric_digits_dot]
      · rw [List.filter_append, hfa, List.filter_cons]
        rw [if_neg (by simp), hfb]
      · intro x hx
        rcases List.mem_append.mp hx with hxa | hxb
        · exact Or.inl (List.all_eq_true.mp ha x hxa)
        · rcases List.mem_cons.mp hxb with rfl | hxb'
          · exact Or.inr rfl
          · exact Or.inl (List.all_eq_true.mp hb x hxb')
    show ((parseDecimal? (cleanNumeric (a ++ '.' :: b))).map ratOfParsed).getD 0 = _
    rw [hclean, parseDecimal?_digits (a ++ b) hab hne]
    simp [ratOfParsed]
  · rw [digitsVal_append]
    push_cast
    have h10 : (10 : ℚ) ^ b.length ≠ 0 := pow_ne_zero _ (by norm_num)
    field_simp
  · have h : parseDecimal? (cleanNumeric "1234.56".data) = some (false, 123456, 0) := by
      decide
    rw [coerceValue, h]
    norm_num [ratOfParsed]

/-- Witness for C9 at the concrete digit strings of `"1234.56"`. -/
theorem decimal_point_rescaling_witness :
    "1234".data.all isDigitChar = true
      ∧ "56".data.all isDigitChar = true
      ∧ coerceValue ⟨"1234".data ++ '.' :: "56".data⟩
          = (digitsVal ("1234".data ++ "56".data) : ℚ) :=
  ⟨by decide, by decide,
   (decimal_point_rescaling "1234".data "56".data (by decide) (by decide)
     (by decide)).1⟩

/-- C4.  Numeric coercion is total and lossy-but-safe: coercing a column
never drops a row (the output has one value per input cell); every cell
whose cleaned text fails to parse coerces to exactly `0`;
`"1.234,56"` (periods as thousands separators, comma as decimal
separator) coerces to `1234.56`; `"abc"` coerces to `0`; and the
per-column failure count (modelled from the spec, see `coerceFailures`)
counts exactly the fallback cells, as on the concrete column shown. -/
theorem numeric_coercion_policy (vals : List (Option String)) :
    (coerceColumn vals).1.length = vals.length
      ∧ (∀ v ∈ vals, coerceFailed v = true → coerceCell v = 0)
      ∧ coerceValue "1.234,56" = 30864 / 25
      ∧ coerceValue "abc" = 0
      ∧ coerceColumn [some "1.234,56", some "abc", none] = ([30864 / 25, 0, 0], 2) := by
  refine ⟨by simp [coerceColumn], ?_, ?_, ?_, ?_⟩
  · intro v hv hfail
    rw [coerceFailed, Option.isNone_iff_eq_none] at hfail
    rw [coerceCell, coerceValue, hfail]
    rfl
  · have h : parseDecimal? (cleanNumeric "1.234,56".data) = some (false, 123456, 2) := by
      decide
    rw [coerceValue, h]
    norm_num [ratOfParsed]
  · have h : parseDecimal? (cleanNumeric "abc".data) = none := by decide
    rw [coerceValue, h]
    rfl
  · have e1 : coerceCell (some "1.234,56") = 30864 / 25 := by
      have h : parseDecimal? (cleanNumeric "1.234,56".data) = some (false, 123456, 2) := by
        decide
      show coerceValue "1.234,56" = 30864 / 25
      rw [coerceValue, h]
      norm_num [ratOfParsed]
    have e2 : coerceCell (some "abc") = 0 := by
      have h : parseDecimal? (cleanNumeric "abc".data) = none := by decide
      show coerceValue "abc" = 0
      rw [coerceValue, h]
      rfl
    have e3 : coerceCell (none : Option String) = 0 := by
      have h : parseDecimal? (cleanNumeric "nan".data) = none := by decide
      show coerceValue "nan" = 0
      rw [coerceValue, h]
      rfl
    have f1 : coerceFailed (some "1.234,56") = false := by decide
    have f2 : coerceFailed (some "abc") = true := by decide
    have f3 : coerceFailed (none : Option String) = true := by decide
    simp [coerceColumn, coerceFailures, e1, e2, e3, f1, f2, f3]

/-- Witness for C4: a concrete unparsable cell coerces to zero. -/
theorem numeric_coercion_policy_witness :
    coerceFailed (some "xy") = true ∧ coerceCell (some "xy") = 0 :=
  ⟨by decide,
   (numeric_coercion_policy [some "xy"]).2.1 (some "xy")
     (List.mem_singleton.mpr rfl) (by decide)⟩

/-- C3 counterexample.  `"2025071"` is an all-digit text of length at
least 6 containing no dash or slash, yet `safe_to_datetime` yields no
value (the exact `%Y%m` format match fails on the extra digit) instead
of parsing the first six digits as July 2025. -/
theorem yyyymm_first_six_digits_counterexample :
    containsDashSlash "2025071".data = false
      ∧ pyIsDigit "2025071".data = true
      ∧ 6 ≤ "2025071".length
      ∧ safe_to_datetime (some "2025071") = none
      ∧ safe_to_datetime (some "2025071") ≠ some (2025, 7, 1) := by
  refine ⟨by decide, by decide, by decide, by decide, by decide⟩

/-- C3 (amended).  A raw period value without dash or slash whose text,
after stripping a trailing fractional component, is all digits of length
exactly 6, with a month part 01-12 and within the representable
timestamp window, yields the first day of that year/month; an all-digit
text of length 7 or more yields no value; and `"202507"` and
`"202507.0"` both yield July 2025. -/
theorem yyyymm_amended :
    (∀ s : String,
        containsDashSlash s.data = false →
        pyIsDigit (stripFrac s.data) = true →
        (stripFrac s.data).length = 6 →
        validDate (digitsVal ((stripFrac s.data).take 4))
            (digitsVal ((stripFrac s.data).drop 4)) 1 = true →
        inTsRange (digitsVal ((stripFrac s.data).take 4),
            digitsVal ((stripFrac s.data).drop 4), 1) = true →
        safe_to_datetime (some s)
          = some (digitsVal ((stripFrac s.data).take 4),
              digitsVal ((stripFrac s.data).drop 4), 1))
      ∧ (∀ s : String,
          containsDashSlash s.data = false →
          7 ≤ (stripFrac s.data).length →
          safe_to_datetime (some s) = none)
      ∧ safe_to_datetime (some "202507") = some (2025, 7, 1)
      ∧ safe_to_datetime (some "202507.0") = some (2025, 7, 1) := by
  refine ⟨?_, ?_, by decide, by decide⟩
  · intro s h1 h2 h3 h4 h5
    have hall : (stripFrac s.data).all isDigitChar = true := by
      have h2' := h2
      rw [pyIsDigit, Bool.and_eq_true] at h2'
      exact h2'.2
    rw [safe_to_datetime]
    rw [if_neg (by rw [h1]; exact Bool.false_ne_true)]
    rw [if_pos ⟨h2, by omega⟩]
    rw [parseYYYYMM?, if_pos ⟨h3, hall⟩]
    rw [if_pos ⟨h4, h5⟩]
  · intro s h1 h2
    rw [safe_to_datetime]
    rw [if_neg (by rw [h1]; exact Bool.false_ne_true)]
    by_cases hd : pyIsDigit (stripFrac s.data) = true ∧ 6 ≤ (stripFrac s.data).length
    · rw [if_pos hd, parseYYYYMM?, if_neg (fun hc => by omega)]
    · rw [if_neg hd]

/-- Witness for C3 (amended) at the all-digit text `"199912"`. -/
theorem yyyymm_amended_witness :
    safe_to_datetime (some "199912") = some (1999, 12, 1) :=
  yyyymm_amended.1 "199912" (by decide) (by decide) (by decide) (by decide) (by decide)

/-- C7.  Dash/slash dates and the drop policy: a raw period value
containing a dash or slash that parses as a valid calendar date yields
exactly that date; the normalized period column keeps at most as many
rows as the raw one (failed rows are dropped, the run never aborts — the
normalizer is a total function); and every surviving value comes from a
raw cell that actually parsed to it (nothing is defaulted in). -/
theorem date_dash_slash_policy :
    (∀ (s : String) (d : ℕ × ℕ × ℕ),
        containsDashSlash s.data = true →
        parseGenericDate? s.data = some d →
        safe_to_datetime (some s) = some d)
      ∧ (∀ vals : List (Option String),
          (normalizePeriods vals).length ≤ vals.length)
      ∧ (∀ (vals : List (Option String)) (d : ℕ × ℕ × ℕ),
          d ∈ normalizePeriods vals →
          ∃ v ∈ vals, safe_to_datetime v = some d) := by
  refine ⟨?_, ?_, ?_⟩
  · intro s d h1 h2
    rw [safe_to_datetime, if_pos h1]
    exact h2
  · intro vals
    calc (normalizePeriods vals).length
        ≤ (vals.map safe_to_datetime).length := List.length_filterMap_le _ _
      _ = vals.length := List.length_map _ _
  · intro vals d hd
    rcases List.mem_filterMap.mp hd with ⟨x, hx, hxd⟩
    rcases List.mem_map.mp hx with ⟨v, hv, rfl⟩
    exact ⟨v, hv, hxd⟩

/-- Witness for C7 at the ISO date `"2023-01-15"`. -/
theorem date_dash_slash_policy_witness :
    safe_to_datetime (some "2023-01-15") = some (2023, 1, 15) :=
  date_dash_slash_policy.1 "2023-01-15" (2023, 1, 15) (by decide) (by decide)

theorem lookupRename_eq_of {tbl : List (String × String)} {n v : String}
    (hex : ∃ p ∈ tbl, p.1 = n) (hall : ∀ p ∈ tbl, p.1 = n → p.2 = v) :
    lookupRename tbl n = v := by
  rw [lookupRename]
  cases hfind : tbl.find? (fun p => decide (p.1 = n)) with
  | none =>
    rw [List.find?_eq_none] at hfind
    rcases hex with ⟨p, hp, hpn⟩
    exact absurd (by simpa using hpn) (hfind p hp)
  | some p =>
    exact hall p (List.mem_of_find?_eq_some hfind)
      (by simpa using List.find?_some hfind)

theorem lookupRename_cases {tbl : List (String × String)} {n v : String}
    (h : lookupRename tbl n = v) :
    (∃ p ∈ tbl, p.1 = n ∧ p.2 = v) ∨ (v = n ∧ ∀ p ∈ tbl, p.1 ≠ n) := by
  rw [lookupRename] at h
  cases hfind : tbl.find? (fun p => decide (p.1 = n)) with
  | none =>
    rw [hfind] at h
    refine Or.inr ⟨h.symm, ?_⟩
    rw [List.find?_eq_none] at hfind
    intro p hp hpn
    exact (hfind p hp) (by simpa using hpn)
  | some p =>
    rw [hfind] at h
    exact Or.inl ⟨p, List.mem_of_find?_eq_some hfind,
      by simpa using List.find?_some hfind, h⟩

theorem column_mapping_qtd_sources :
    ∀ p ∈ column_mapping, p.2 = "Qtd_Estatística" →
      p.1 = col_qte_est_1 ∨ p.1 = col_qte_est_2 := by decide

theorem column_mapping_qtd_targets :
    ∀ p ∈ column_mapping, p.1 = col_qte_est_2 → p.2 = "Qtd_Estatística" := by decide

/-- C5.  Column-conflict resolution: for every frame (with pairwise
distinct raw headers, as pandas guarantees, and no raw header already
named like the canonical field) containing both statistical-quantity
headers, the reconciler keeps exactly one column named
`Qtd_Estatística`; that survivor carries the values of the more
descriptive header `Qtd. de operações estimada`; every column of the
result originates from a raw column other than the dropped
`QTD Estatística` (so the dropped header's values never appear); and
exactly the conflict warning naming both headers is emitted — the
reconciler is a total function, it never aborts. -/
theorem column_conflict_resolution {α : Type} (df : Frame α)
    (hq1 : col_qte_est_1 ∈ colNames df)
    (hq2 : col_qte_est_2 ∈ colNames df)
    (hnd : (colNames df).Nodup)
    (hq : "Qtd_Estatística" ∉ colNames df) :
    (colNames (reconcileFrame df).1).count "Qtd_Estatística" = 1
      ∧ (∃ v, ("Qtd_Estatística", v) ∈ (reconcileFrame df).1
            ∧ (col_qte_est_2, v) ∈ df)
      ∧ (∀ p ∈ (reconcileFrame df).1,
          ∃ c ∈ df, c.1 ≠ col_qte_est_1 ∧ p.2 = c.2)
      ∧ (reconcileFrame df).2 = [⟨col_qte_est_1, col_qte_est_2⟩] := by
  have hrec : reconcileFrame df
      = ((df.filter (fun c => decide (c.1 ≠ col_qte_est_1))).map
          (fun c => (lookupRename
            ((column_mapping.filter (fun p => decide (p.1 ∈ colNames df))).filter
              (fun p => decide (p.1 ≠ col_qte_est_1))) c.1, c.2)),
         [⟨col_qte_est_1, col_qte_est_2⟩]) := by
    rw [reconcileFrame, if_pos ⟨hq1, hq2⟩]
  set tbl := (column_mapping.filter (fun p => decide (p.1 ∈ colNames df))).filter
    (fun p => decide (p.1 ≠ col_qte_est_1)) with htbl
  have htbl_sub : ∀ p ∈ tbl, p ∈ column_mapping := by
    intro p hp
    exact List.mem_of_mem_filter (List.mem_of_mem_filter hp)
  have hk1 : lookupRename tbl col_qte_est_2 = "Qtd_Estatística" := by
    refine lookupRename_eq_of ⟨(col_qte_est_2, "Qtd_Estatística"), ?_, rfl⟩ ?_
    · rw [htbl]
      refine List.mem_filter.mpr ⟨List.mem_filter.mpr ⟨by decide, ?_⟩, by decide⟩
      simpa using hq2
    · intro p hp hpn
      exact column_mapping_qtd_targets p (htbl_sub p hp) hpn
  have hk2 : ∀ n, n ∈ colNames df → n ≠ col_qte_est_1 →
      (lookupRename tbl n = "Qtd_Estatística" ↔ n = col_qte_est_2) := by
    intro n hn hn1
    constructor
    · intro hlook
      rcases lookupRename_cases hlook with ⟨p, hp, hpn, hpv⟩ | ⟨hv, _⟩
      · rcases column_mapping_qtd_sources p (htbl_sub p hp) hpv with h1 | h2
        · exact absurd (h1 ▸ hpn) hn1.symm
        · exact hpn ▸ h2
      · exact absurd (hv ▸ hn) hq
    · intro hn2
      rw [hn2]
      exact hk1
  refine ⟨?_, ?_, ?_, by rw [hrec]⟩
  · rw [hrec]
    have step1 : colNames ((df.filter (fun c => decide (c.1 ≠ col_qte_est_1))).map
        (fun c => (lookupRename tbl c.1, c.2)))
        = (df.filter (fun c => decide (c.1 ≠ col_qte_est_1))).map
            (fun c => lookupRename tbl c.1) := by
      rw [colNames, List.map_map]
      rfl
    rw [step1, List.count, List.countP_map, List.countP_filter]
    have hprop : ∀ c ∈ df,
        (lookupRename tbl c.1 = "Qtd_Estatística" ∧ c.1 ≠ col_qte_est_1)
          ↔ c.1 = col_qte_est_2 := by
      intro c hc
      have hcn : c.1 ∈ colNames df := List.mem_map.mpr ⟨c, hc, rfl⟩
      constructor
      · rintro ⟨hlv, hne⟩
        exact (hk2 c.1 hcn hne).mp hlv
      · intro h2
        have hne : c.1 ≠ col_qte_est_1 := by
          rw [h2]
          decide
        exact ⟨(hk2 c.1 hcn hne).mpr h2, hne⟩
    have key : df.countP (fun c => decide (c.1 = col_qte_est_2)) = 1 := by
      have hcast : df.countP (fun c => decide (c.1 = col_qte_est_2))
          = (colNames df).countP (fun x => decide (x = col_qte_est_2)) := by
        rw [colNames, List.countP_map]
        rfl
      have hcnt : (colNames df).countP (fun x => decide (x = col_qte_est_2))
          = (colNames df).count col_qte_est_2 := by
        rw [List.count]
        apply List.countP_congr
        intro a ha
        simp
      rw [hcast, hcnt]
      exact List.count_eq_one_of_mem hnd hq2
    rw [← key]
    apply List.countP_congr
    intro c hc
    simp only [Function.comp, beq_iff_eq, Bool.and_eq_true, decide_eq_true_eq]
    exact hprop c hc
  · rcases List.mem_map.mp hq2 with ⟨c, hc, hcfst⟩
    refine ⟨c.2, ?_, ?_⟩
    · rw [hrec]
      refine List.mem_map.mpr ⟨c, List.mem_filter.mpr ⟨hc, by rw [hcfst]; decide⟩, ?_⟩
      rw [hcfst, hk1]
    · have : (col_qte_est_2, c.2) = c := Prod.ext hcfst.symm rfl
      rw [this]
      exact hc
  · intro p hp
    rw [hrec] at hp
    rcases List.mem_map.mp hp with ⟨c, hc, rfl⟩
    rcases List.mem_filter.mp hc with ⟨hcdf, hcne⟩
    exact ⟨c, hcdf, by simpa using hcne, rfl⟩

/-- Witness for C5 at the concrete conflicting frame. -/
theorem column_conflict_resolution_witness :
    (colNames (reconcileFrame sampleConflictFrame).1).count "Qtd_Estatística" = 1
      ∧ (∃ v, ("Qtd_Estatística", v) ∈ (reconcileFrame sampleConflictFrame).1
            ∧ (col_qte_est_2, v) ∈ sampleConflictFrame)
      ∧ (∀ p ∈ (reconcileFrame sampleConflictFrame).1,
          ∃ c ∈ sampleConflictFrame, c.1 ≠ col_qte_est_1 ∧ p.2 = c.2)
      ∧ (reconcileFrame sampleConflictFrame).2
          = [⟨col_qte_est_1, col_qte_est_2⟩] :=
  column_conflict_resolution sampleConflictFrame (by decide) (by decide)
    (by decide) (by decide)

theorem map_fst_filter_fst {α : Type} (n : String) (l : Frame α) :
    (l.filter (fun c => decide (c.1 ≠ n))).map Prod.fst
      = (l.map Prod.fst).filter (fun x => decide (x ≠ n)) := by
  induction l with
  | nil => rfl
  | cons c rest ih =>
    rw [List.filter_cons, List.map_cons, List.filter_cons]
    by_cases h : c.1 = n
    · rw [if_neg (by simp [h]), if_neg (by simp [h])]
      exact ih
    · rw [if_pos (by simp [h]), if_pos (by simp [h]), List.map_cons, ih]

theorem colNames_keepFirstCols {α : Type} (df : Frame α) :
    colNames (keepFirstCols df) = firstDedup (colNames df) := by
  induction df with
  | nil => rfl
  | cons c rest ih =>
    show (c :: (keepFirstCols rest).filter (fun c' => decide (c'.1 ≠ c.1))).map Prod.fst
        = firstDedup (c.1 :: rest.map Prod.fst)
    rw [List.map_cons, firstDedup, map_fst_filter_fst]
    have ih' : List.map Prod.fst (keepFirstCols rest)
        = firstDedup (List.map Prod.fst rest) := ih
    rw [ih']

theorem colNames_dateNormalizeFrame (df : Frame (Option String)) :
    colNames (dateNormalizeFrame df) = colNames df := by
  simp only [dateNormalizeFrame, colNames, List.map_map]
  rfl

theorem colNames_coerceFrame (df : Frame (Option String)) :
    colNames (coerceFrame df) = colNames df := by
  simp only [coerceFrame, colNames, List.map_map]
  apply List.map_congr_left
  intro c hc
  by_cases h : c.1 ∈ numeric_cols
  · simp [h]
  · simp [h]

/-- C6 counterexample.  On a zero-row upload whose raw headers both
rename to the canonical `NCM`, the residual-duplicate removal of
lines 106-107 is skipped (it is guarded by `if not df.empty`), so the
pipeline's frame keeps two columns named `NCM`: the claimed invariant
fails on this input. -/
theorem dedup_empty_frame_counterexample :
    frontPipeline sampleNCMFrame = [("NCM", []), ("NCM", [])]
      ∧ ¬(colNames (frontPipeline sampleNCMFrame)).Nodup := by
  refine ⟨by decide, by decide⟩

/-- C6 (amended).  On every input with at least one row (and at least
one column), the Deduplicator keeps the first occurrence of each
canonical name, so the resulting column names are pairwise distinct —
the invariant holds from before typed coercion on; on a zero-row input
the step is skipped and duplicates may persist.  Date normalization and
numeric coercion preserve the column names, and the aggregation result's
columns (deduplicated unconditionally at lines 299-301) are always
pairwise distinct. -/
theorem dedup_invariant_amended :
    (∀ df : Frame (Option String), framEmpty df = false →
        (colNames (dedupFrame df)).Nodup)
      ∧ (∀ df : Frame (Option String),
          colNames (dateNormalizeFrame df) = colNames df)
      ∧ (∀ df : Frame (Option String), colNames (coerceFrame df) = colNames df)
      ∧ (∀ groupCols aggCols : List String,
          (aggResultNames groupCols aggCols).Nodup) := by
  refine ⟨?_, colNames_dateNormalizeFrame, colNames_coerceFrame, ?_⟩
  · intro df hne
    rw [dedupFrame, if_neg (by simp [hne]), colNames_keepFirstCols]
    exact nodup_firstDedup _
  · intro groupCols aggCols
    exact nodup_firstDedup _

/-- Witness for C6 (amended) at a one-row frame with a duplicate
column. -/
theorem dedup_invariant_amended_witness :
    (colNames (dedupFrame sampleDupFrame)).Nodup :=
  dedup_invariant_amended.1 sampleDupFrame (by decide)

/-- C8.  Fatal schema errors: ingestion aborts if and only if, after
reconciliation, the period column `ANO/MÊS` or the weight column `Peso`
is absent; absence of any other declared numeric column (`Valor_FOB`,
`Valor_CIF`, `Qtd_Estatística`) is backfilled with zeros and never
aborts, and the abort happens before any aggregation (`ingest` precedes
every grouping step). -/
theorem schema_abort_iff (df : Frame (Option String)) :
    ingestAborts df
      ↔ ("ANO/MÊS" ∉ colNames (frontPipeline df)
          ∨ "Peso" ∉ colNames (frontPipeline df)) := by
  have hpres := colNames_dateNormalizeFrame (frontPipeline df)
  by_cases h1 : "ANO/MÊS" ∈ colNames (frontPipeline df)
  · by_cases h2 : "Peso" ∈ colNames (frontPipeline df)
    · have hok : ingest df
          = Except.ok (coerceFrame (backfillFrame (dateNormalizeFrame (frontPipeline df)))) := by
        rw [ingest, if_pos h1, if_pos (hpres ▸ h2)]
      constructor
      · rintro ⟨e, he⟩
        rw [hok] at he
        cases he
      · rintro (h | h)
        · exact absurd h1 h
        · exact absurd h2 h
    · have herr : ingest df = Except.error SchemaError.pesoMissing := by
        rw [ingest, if_pos h1, if_neg (hpres ▸ h2)]
      exact ⟨fun _ => Or.inr h2, fun _ => ⟨SchemaError.pesoMissing, herr⟩⟩
  · have herr : ingest df = Except.error SchemaError.periodMissing := by
      rw [ingest, if_neg h1]
    exact ⟨fun _ => Or.inl h1, fun _ => ⟨SchemaError.periodMissing, herr⟩⟩

/-- Witness for C8: a frame with a period column but no weight column
aborts. -/
theorem schema_abort_iff_witness : ingestAborts sampleNoPesoFrame :=
  (schema_abort_iff sampleNoPesoFrame).mpr (Or.inr (by decide))

/-- C10.  Forecast-input noninterference: the `(period, value)` series
handed to the forecasting collaborator is computed by grouping the FULL
canonical dataset by period alone, so two runs differing only in the
historical view's product/country multiselect choices produce the
identical forecast input series; an empty selection also leaves the
historical `df_filtrado` untouched. -/
theorem forecast_filter_independence (rows : List CanonRow) (n metric : ℕ)
    (p1 c1 p2 c2 : List String) (hm : metric < n) :
    forecastInput rows n metric p1 c1 = forecastInput rows n metric p2 c2
      ∧ forecastInput rows n metric p1 c1 = periodGroupSeries rows metric
      ∧ df_filtrado rows [] [] = rows := by
  refine ⟨rfl, ?_, by simp [df_filtrado]⟩
  rw [forecastInput, periodGroupSeries, singlePassAgg, List.map_map]
  apply List.map_congr_left
  intro k hk
  simp only [Function.comp]
  congr 1
  have hlen : metric < ((List.range n).map
      (fun i => groupSum (toKRows rows) k i)).length := by
    simpa using hm
  rw [List.getD_eq_getElem _ _ hlen, List.getElem_map, List.getElem_range]

/-- Witness for C10: two concrete runs, one with filters selected and
one without, get the same forecast series. -/
theorem forecast_filter_independence_witness :
    1 < 3
      ∧ (forecastInput sampleCanon 3 1 ["PMMA"] ["China"]
            = forecastInput sampleCanon 3 1 [] []
          ∧ forecastInput sampleCanon 3 1 ["PMMA"] ["China"]
              = periodGroupSeries sampleCanon 1
          ∧ df_filtrado sampleCanon [] [] = sampleCanon) :=
  ⟨by norm_num,
   forecast_filter_independence sampleCanon 3 1 ["PMMA"] ["China"] [] []
     (by norm_num)⟩
